import Mathlib

/-!
Shallow embedding of the ESP-NOW communication layer implemented in
`src/core/ESPNowComm.h` and `src/core/ESPNowComm.cpp`.

Bytes are modelled as `Nat` values; `uint8_t` arithmetic wraps with `% 256`,
`uint16_t` with `% 65536`, and `uint32_t` with `% 4294967296`.  Buffers are
`List Nat`; raw device memory behind a buffer pointer is a total function
`Nat → Nat` (the receive path reads struct offsets from it regardless of the
buffer's actual length, exactly as the C cast does).  The asynchronous radio
primitive `esp_now_send` is an oracle `List Nat → Bool` giving its verdict
per destination address.
-/

set_option maxRecDepth 16384

namespace ESPNow

/-- `MAX_ESPNOW_PEERS` from `config.h`. -/
def MAX_ESPNOW_PEERS : Nat := 5

/-- The `ESPNowMessage` struct of `ESPNowComm.h`.  `data` holds the meaningful
prefix of the 230-byte `char data[230]` array: exactly the `dataLen` bytes
that the sender's `memcpy` wrote and that the checksum loop reads. -/
structure ESPNowMessage where
  type : Nat
  sender : List Nat
  timestamp : Nat
  dataLen : Nat
  data : List Nat
  checksum : Nat
deriving DecidableEq, Repr

/-- The `PeerInfo` struct of `ESPNowComm.h`; `name` is the byte list stored by
`strncpy(.., name, 31)`. -/
structure PeerInfo where
  mac : List Nat
  name : List Nat
  active : Bool
  lastSeen : Nat
  messagesSent : Nat
  messagesReceived : Nat
deriving DecidableEq, Repr

/-- The mutable fields of the `ESPNowComm` singleton that the messaging
operations touch: the peer table and the aggregate counters. -/
structure CommState where
  peers : List PeerInfo
  totalSent : Nat
  totalReceived : Nat
  totalFailed : Nat
deriving DecidableEq, Repr

/-- `ESPNowComm::calculateChecksum`: a `uint8_t` accumulator that wraps mod 256
at every `+=`, summing `type`, the six `sender` bytes, the low byte of
`timestamp`, `dataLen`, and the `dataLen` payload bytes. -/
def calculateChecksum (msg : ESPNowMessage) : Nat :=
  let s1 := msg.sender.foldl (fun s b => (s + b) % 256) (msg.type % 256)
  let s2 := (s1 + msg.timestamp % 256) % 256
  let s3 := (s2 + msg.dataLen) % 256
  msg.data.foldl (fun s b => (s + b) % 256) s3

/-- `ESPNowComm::validateChecksum`: recompute and compare with the stored byte. -/
def validateChecksum (msg : ESPNowMessage) : Bool :=
  calculateChecksum msg == msg.checksum

/-- The message-construction part of `ESPNowComm::sendMessage`: fills the
struct from the device's own MAC, the type byte, `millis()`, and the payload
(the bytes of a NUL-free C string), truncating the payload to
`sizeof(msg.data) - 1 = 229` bytes, then stores the checksum. -/
def buildMessage (ownMac : List Nat) (type : Nat) (payload : List Nat)
    (now : Nat) : ESPNowMessage :=
  let dataLen := min payload.length 229
  let base : ESPNowMessage :=
    { type := type % 256
      sender := ownMac.map (· % 256)
      timestamp := now % 4294967296
      dataLen := dataLen
      data := (payload.take dataLen).map (· % 256)
      checksum := 0 }
  { base with checksum := calculateChecksum base }

/-- Little-endian byte decomposition of a `uint32_t`. -/
def le32 (n : Nat) : List Nat :=
  [n % 256, n / 256 % 256, n / 65536 % 256, n / 16777216 % 256]

/-- The 244 bytes of the in-memory `ESPNowMessage` struct, which is what
`esp_now_send(mac, (uint8_t *)&msg, sizeof(msg))` transmits.  GCC on the
ESP32 places one padding byte before the 4-byte-aligned `timestamp`; that
padding byte and the uninitialized tail of `data[230]` after the terminating
NUL are arbitrary stack bytes, supplied here by `junk`. -/
def serializeMessage (msg : ESPNowMessage) (junk : Nat → Nat) : List Nat :=
  [msg.type] ++ msg.sender ++ [junk 7 % 256] ++ le32 msg.timestamp
    ++ [msg.dataLen]
    ++ (msg.data ++ [0]
        ++ (List.range (229 - msg.dataLen)).map
            (fun i => junk (14 + msg.dataLen + i) % 256))
    ++ [msg.checksum]

/-- The receiving cast `ESPNowMessage *msg = (ESPNowMessage *)data` in
`ESPNowComm::onDataRecv`: reads the struct fields at their fixed offsets from
the raw memory behind the buffer pointer (offset 7 is padding, skipped; the
checksum field sits at offset 243; the `dataLen` payload bytes start at
offset 13). -/
def parseMessage (mem : Nat → Nat) : ESPNowMessage :=
  { type := mem 0 % 256
    sender := [mem 1 % 256, mem 2 % 256, mem 3 % 256, mem 4 % 256,
               mem 5 % 256, mem 6 % 256]
    timestamp := mem 8 % 256 + 256 * (mem 9 % 256) + 65536 * (mem 10 % 256)
      + 16777216 * (mem 11 % 256)
    dataLen := mem 12 % 256
    data := (List.range (mem 12 % 256)).map (fun i => mem (13 + i) % 256)
    checksum := mem 243 % 256 }

/-- `ESPNowComm::isPeerRegistered`: a linear scan requiring both a MAC match
and `active == true`. -/
def isPeerRegistered (peers : List PeerInfo) (mac : List Nat) : Bool :=
  peers.any (fun p => p.mac == mac && p.active)

/-- `ESPNowComm::addPeer`: rejects when the table already holds
`MAX_ESPNOW_PEERS` entries, then returns no-op success when
`isPeerRegistered`, then asks the ESP-NOW driver (`esp_now_add_peer`,
modelled by `driverOk`) and finally appends a fresh entry with
`active = true`, `lastSeen = now` and zeroed counters. -/
def addPeer (peers : List PeerInfo) (mac : List Nat) (name : List Nat)
    (now : Nat) (driverOk : Bool) : List PeerInfo × Bool :=
  if MAX_ESPNOW_PEERS ≤ peers.length then (peers, false)
  else if isPeerRegistered peers mac then (peers, true)
  else if driverOk then
    (peers ++ [{ mac := mac, name := name.take 31, active := true,
                 lastSeen := now, messagesSent := 0, messagesReceived := 0 }],
     true)
  else (peers, false)

/-- `ESPNowComm::updatePeerActivity`: finds the first entry whose MAC matches
(whether active or not), sets `lastSeen = millis()` and bumps the `uint16_t`
`messagesReceived`, then breaks out of the loop. -/
def updatePeerActivity : List PeerInfo → List Nat → Nat → List PeerInfo
  | [], _, _ => []
  | p :: ps, mac, now =>
    if p.mac = mac then
      { p with lastSeen := now,
               messagesReceived := (p.messagesReceived + 1) % 65536 } :: ps
    else
      p :: updatePeerActivity ps mac now

/-- The per-peer statistics loop in `ESPNowComm::sendMessage`: bump the
`uint16_t` `messagesSent` of the first entry whose MAC matches (whether
active or not), then break. -/
def incrementPeerSent : List PeerInfo → List Nat → List PeerInfo
  | [], _ => []
  | p :: ps, mac =>
    if p.mac = mac then
      { p with messagesSent := (p.messagesSent + 1) % 65536 } :: ps
    else
      p :: incrementPeerSent ps mac

/-- `ESPNowComm::sendMessage`: builds the message (truncating the payload),
always hands the full struct to `esp_now_send` (whose verdict is the oracle
`tOk`), and updates the counters synchronously from that verdict: on
acceptance `totalSent` and the destination peer's `messagesSent` are bumped;
on rejection `totalFailed` is bumped.  Returns the new state, the boolean
result, and the transmitted message. -/
def sendMessage (st : CommState) (ownMac mac : List Nat) (type : Nat)
    (payload : List Nat) (now : Nat) (tOk : List Nat → Bool) :
    CommState × Bool × ESPNowMessage :=
  let msg := buildMessage ownMac type payload now
  if tOk mac then
    ({ st with totalSent := (st.totalSent + 1) % 4294967296,
               peers := incrementPeerSent st.peers mac }, true, msg)
  else
    ({ st with totalFailed := (st.totalFailed + 1) % 4294967296 }, false, msg)

/-- The loop body of `ESPNowComm::sendToAllPeers`: iterate index `i` up to the
entry count (which no `sendMessage` call changes), reading `peers[i]` from the
live table, calling `sendMessage` for each active entry and recording the
destination MAC of every transmit attempt.  A failed send only clears the
aggregate success flag; the loop continues. -/
def sendToAllAux (ownMac : List Nat) (type : Nat) (payload : List Nat)
    (now : Nat) (tOk : List Nat → Bool) :
    Nat → Nat → CommState → Bool → CommState × Bool × List (List Nat)
  | 0, _, st, succ => (st, succ, [])
  | fuel + 1, i, st, succ =>
    match st.peers[i]? with
    | none => (st, succ, [])
    | some p =>
      if p.active then
        let s := sendMessage st ownMac p.mac type payload now tOk
        let rest := sendToAllAux ownMac type payload now tOk fuel (i + 1) s.1
          (succ && s.2.1)
        (rest.1, rest.2.1, p.mac :: rest.2.2)
      else
        sendToAllAux ownMac type payload now tOk fuel (i + 1) st succ

/-- `ESPNowComm::sendToAllPeers`: run the loop over all `peerCount` entries,
starting from a true success flag. -/
def sendToAllPeers (st : CommState) (ownMac : List Nat) (type : Nat)
    (payload : List Nat) (now : Nat) (tOk : List Nat → Bool) :
    CommState × Bool × List (List Nat) :=
  sendToAllAux ownMac type payload now tOk st.peers.length 0 st true

/-- `ESPNowComm::onDataSent`: the ESP-NOW send-completion callback.  It
mutates no counters and no peer entry; it only forwards
`(mac, status == ESP_NOW_SEND_SUCCESS)` to the user-registered callback,
returned here as the second component. -/
def onDataSent (st : CommState) (mac : List Nat) (success : Bool) :
    CommState × (List Nat × Bool) :=
  (st, (mac, success))

/-- `ESPNowComm::onDataRecv`: ignores the driver-supplied `data_len`
(`bufLen`) entirely, casts the buffer memory to the struct, validates only
the checksum, and on success bumps `totalReceived`, touches the sender's
peer entry, and hands `(msg.data, msg.type)` to the user callback (returned
as `some (payload, type)`; `none` means the frame was silently dropped). -/
def onDataRecv (st : CommState) (srcMac : List Nat) (mem : Nat → Nat)
    (bufLen : Nat) (now : Nat) : CommState × Option (List Nat × Nat) :=
  let msg := parseMessage mem
  if validateChecksum msg then
    ({ st with
        totalReceived := (st.totalReceived + 1) % 4294967296
        peers := updatePeerActivity st.peers srcMac now },
     some (msg.data, msg.type))
  else
    (st, none)

/-- `uint32_t` subtraction `a - b` (two's-complement wrap-around), for the
`now - lastSeen` age computation in `checkPeerActivity`. -/
def sub32 (a b : Nat) : Nat :=
  (a + 4294967296 - b % 4294967296) % 4294967296

/-- `ESPNowComm::checkPeerActivity`: every entry whose `uint32_t` age
`now - lastSeen` exceeds `timeout` has `active` cleared; nothing else is
touched and no entry is removed. -/
def checkPeerActivity (peers : List PeerInfo) (now timeout : Nat) :
    List PeerInfo :=
  peers.map (fun p =>
    if timeout < sub32 now p.lastSeen then { p with active := false } else p)

/-! ## Concrete devices and states used by witnesses and counterexamples -/

/-- The MAC `AA:BB:CC:DD:EE:FF` used by the spec's scenario. -/
def macA : List Nat := [170, 187, 204, 221, 238, 255]

/-- A second device MAC (the sending device's own address in examples). -/
def macB : List Nat := [1, 2, 3, 4, 5, 6]

/-- A third device MAC. -/
def macC : List Nat := [3, 3, 3, 3, 3, 3]

/-- A fourth device MAC. -/
def macD : List Nat := [4, 4, 4, 4, 4, 4]

/-- A registered, active peer entry for `macA`. -/
def peerA : PeerInfo :=
  { mac := macA, name := [65], active := true, lastSeen := 0,
    messagesSent := 0, messagesReceived := 0 }

/-- The same entry after the liveness sweep evicted it (`active = false`). -/
def peerAInactive : PeerInfo :=
  { mac := macA, name := [65], active := false, lastSeen := 0,
    messagesSent := 0, messagesReceived := 0 }

/-- A table holding `MAX_ESPNOW_PEERS = 5` entries, `macA` among them. -/
def fullTable : List PeerInfo :=
  [peerA,
   { mac := [1, 0, 0, 0, 0, 1], name := [66], active := true, lastSeen := 0,
     messagesSent := 0, messagesReceived := 0 },
   { mac := [1, 0, 0, 0, 0, 2], name := [66], active := true, lastSeen := 0,
     messagesSent := 0, messagesReceived := 0 },
   { mac := [1, 0, 0, 0, 0, 3], name := [66], active := true, lastSeen := 0,
     messagesSent := 0, messagesReceived := 0 },
   { mac := [1, 0, 0, 0, 0, 4], name := [66], active := true, lastSeen := 0,
     messagesSent := 0, messagesReceived := 0 }]

/-- A freshly initialized manager state: empty table, zeroed counters. -/
def st0 : CommState := { peers := [], totalSent := 0, totalReceived := 0, totalFailed := 0 }

/-- A state whose table holds the single active peer `peerA`. -/
def stOne : CommState :=
  { peers := [peerA], totalSent := 0, totalReceived := 0, totalFailed := 0 }

/-! ## Helper lemmas -/

/-- A fold that wraps mod 256 at every step computes the sum mod 256. -/
lemma foldl_mod_256 (l : List Nat) : ∀ a : Nat, a < 256 →
    l.foldl (fun s b => (s + b) % 256) a = (a + l.sum) % 256 := by
  induction l with
  | nil =>
    intro a ha
    simpa using (Nat.mod_eq_of_lt ha).symm
  | cons b t ih =>
    intro a ha
    simp only [List.foldl_cons, List.sum_cons]
    rw [ih ((a + b) % 256) (Nat.mod_lt _ (by norm_num)), Nat.mod_add_mod,
      Nat.add_assoc]

/-- Closed form of the byte-wise wrapping checksum accumulation. -/
lemma checksum_closed_form (msg : ESPNowMessage) :
    calculateChecksum msg =
      (msg.type + msg.sender.sum + msg.timestamp % 256 + msg.dataLen
        + msg.data.sum) % 256 := by
  unfold calculateChecksum
  rw [foldl_mod_256 _ _ (Nat.mod_lt _ (by norm_num)),
    foldl_mod_256 _ _ (Nat.mod_lt _ (by norm_num))]
  omega

/-- The computed checksum is a byte. -/
lemma calculateChecksum_lt (msg : ESPNowMessage) : calculateChecksum msg < 256 := by
  rw [checksum_closed_form]
  exact Nat.mod_lt _ (by norm_num)

/-- Entry-wise characterization of `updatePeerActivity`: only the first
entry whose MAC matches is touched, receiving `lastSeen := now` and a
wrapped `messagesReceived` bump; every other field and entry is unchanged
(in particular `active` is never written). -/
lemma updatePeerActivity_getElem (peers : List PeerInfo) (mac : List Nat)
    (now i : Nat) :
    (updatePeerActivity peers mac now)[i]? =
      if i = peers.findIdx (fun q => q.mac == mac) then
        peers[i]?.map (fun p =>
          { p with lastSeen := now,
                   messagesReceived := (p.messagesReceived + 1) % 65536 })
      else peers[i]? := by
  induction peers generalizing i with
  | nil => simp [updatePeerActivity]
  | cons p ps ih =>
    by_cases h : p.mac = mac
    · simp only [updatePeerActivity, if_pos h, List.findIdx_cons, h,
        beq_self_eq_true, cond_true]
      cases i with
      | zero => simp [h]
      | succ j => simp
    · have hb : (p.mac == mac) = false := beq_eq_false_iff_ne.mpr h
      simp only [updatePeerActivity, if_neg h, List.findIdx_cons, hb,
        cond_false]
      cases i with
      | zero => simp
      | succ j =>
        simp only [List.getElem?_cons_succ, ih j, Nat.succ_eq_add_one,
          Nat.add_right_cancel_iff]

/-- Entry-wise characterization of the per-peer statistics loop in
`sendMessage`: only the first entry whose MAC matches gets its wrapped
`messagesSent` bump; everything else is unchanged. -/
lemma incrementPeerSent_getElem (peers : List PeerInfo) (mac : List Nat)
    (i : Nat) :
    (incrementPeerSent peers mac)[i]? =
      if i = peers.findIdx (fun q => q.mac == mac) then
        peers[i]?.map (fun p =>
          { p with messagesSent := (p.messagesSent + 1) % 65536 })
      else peers[i]? := by
  induction peers generalizing i with
  | nil => simp [incrementPeerSent]
  | cons p ps ih =>
    by_cases h : p.mac = mac
    · simp only [incrementPeerSent, if_pos h, List.findIdx_cons, h,
        beq_self_eq_true, cond_true]
      cases i with
      | zero => simp [h]
      | succ j => simp
    · have hb : (p.mac == mac) = false := beq_eq_false_iff_ne.mpr h
      simp only [incrementPeerSent, if_neg h, List.findIdx_cons, hb,
        cond_false]
      cases i with
      | zero => simp
      | succ j =>
        simp only [List.getElem?_cons_succ, ih j, Nat.succ_eq_add_one,
          Nat.add_right_cancel_iff]

end ESPNow

namespace ESPNow

/-! ## C4: checksum formula -/

/-- C4: for every message, the computed checksum equals the sum of the kind
byte, the six sender-address bytes, the low byte of the timestamp, the
payload-length byte and every payload byte, reduced modulo 256 — the
byte-wise wrap-around accumulation of the source carries no extra state. -/
theorem calculateChecksum_is_sum_mod256 (msg : ESPNowMessage) :
    calculateChecksum msg =
      (msg.type + msg.sender.sum + msg.timestamp % 256 + msg.dataLen
        + msg.data.sum) % 256 :=
  checksum_closed_form msg

/-! ## C8: the liveness sweep -/

/-- C8: `checkPeerActivity` clears `active` for exactly the entries whose
`uint32_t` age `now - lastSeen` exceeds `timeout`, removes no entry, and
leaves the address, name, `lastSeen` and both counters of every entry
unchanged. -/
theorem checkPeerActivity_marks_exactly_timed_out (peers : List PeerInfo)
    (now timeout : Nat) :
    (checkPeerActivity peers now timeout).length = peers.length ∧
    ∀ i : Nat, (checkPeerActivity peers now timeout)[i]? =
      peers[i]?.map (fun p =>
        { p with active := if timeout < sub32 now p.lastSeen then false
                           else p.active }) := by
  refine ⟨by simp [checkPeerActivity], fun i => ?_⟩
  simp only [checkPeerActivity, List.getElem?_map]
  cases h : peers[i]? with
  | none => rfl
  | some p =>
    by_cases hc : timeout < sub32 now p.lastSeen <;> simp [hc]

end ESPNow

namespace ESPNow

/-! ## C5: touch on a validated inbound message -/

/-- C5 counterexample: an evicted (inactive) registered peer is touched by a
validated inbound message; `lastSeen` and `messagesReceived` are updated but
`active` stays `false` — the code never sets it back to `true`. -/
theorem updatePeerActivity_keeps_inactive_cex :
    updatePeerActivity [peerAInactive] macA 100 =
      [{ mac := macA, name := [65], active := false, lastSeen := 100,
         messagesSent := 0, messagesReceived := 1 }] ∧
    ((updatePeerActivity [peerAInactive] macA 100)[0]?).map PeerInfo.active =
      some false := by
  decide

/-- C5 amended: `updatePeerActivity` sets `lastSeen := now` and bumps the
`uint16_t` `messagesReceived` of the first entry whose address matches, and
changes nothing else — in particular the `active` flag of every entry
(inactive ones included) is left unchanged, so an evicted peer is not
re-activated. -/
theorem updatePeerActivity_touch_amended (peers : List PeerInfo)
    (mac : List Nat) (now i : Nat) :
    (updatePeerActivity peers mac now)[i]? =
      if i = peers.findIdx (fun q => q.mac == mac) then
        peers[i]?.map (fun p =>
          { p with lastSeen := now,
                   messagesReceived := (p.messagesReceived + 1) % 65536 })
      else peers[i]? :=
  updatePeerActivity_getElem peers mac now i

end ESPNow

namespace ESPNow

/-! ## C6: where the statistics counters are updated -/

/-- C6 counterexample: the asynchronous send-completion callback `onDataSent`
changes no counter at all, even for a delivered completion to a registered
peer, while `sendMessage` has already incremented `totalSent` (and the
peer's `messagesSent`) synchronously at submit time — the opposite of the
claimed update-on-completion. -/
theorem onDataSent_updates_nothing_cex :
    (onDataSent stOne macA true).1 = stOne ∧
    (sendMessage stOne macB macA 0 [72] 0 (fun _ => true)).1.totalSent = 1 ∧
    ((sendMessage stOne macB macA 0 [72] 0
        (fun _ => true)).1.peers[0]?).map PeerInfo.messagesSent = some 1 := by
  decide

/-- C6 amended: the aggregate counters are updated synchronously inside
`sendMessage` from the verdict `esp_now_send` returns at submit time: on
acceptance `totalSent` is bumped and the first table entry matching the
destination address gets its `messagesSent` bump; on rejection `totalFailed`
is bumped.  The completion callback `onDataSent` mutates no state and only
forwards `(mac, delivered)` to the user-registered handler. -/
theorem sendMessage_counters_at_submit_amended (st : CommState)
    (own mac : List Nat) (type : Nat) (payload : List Nat) (now : Nat)
    (tOk : List Nat → Bool) (st' : CommState) (mac' : List Nat) (ok : Bool) :
    ((sendMessage st own mac type payload now tOk).1.totalSent =
      if tOk mac then (st.totalSent + 1) % 4294967296 else st.totalSent) ∧
    ((sendMessage st own mac type payload now tOk).1.totalFailed =
      if tOk mac then st.totalFailed else (st.totalFailed + 1) % 4294967296) ∧
    ((sendMessage st own mac type payload now tOk).2.1 = tOk mac) ∧
    (∀ i : Nat, (sendMessage st own mac type payload now tOk).1.peers[i]? =
      if tOk mac ∧ i = st.peers.findIdx (fun q => q.mac == mac) then
        st.peers[i]?.map (fun p =>
          { p with messagesSent := (p.messagesSent + 1) % 65536 })
      else st.peers[i]?) ∧
    (onDataSent st' mac' ok = (st', (mac', ok))) := by
  by_cases h : tOk mac = true
  · refine ⟨by simp [sendMessage, h], by simp [sendMessage, h],
      by simp [sendMessage, h], fun i => ?_, rfl⟩
    simp only [sendMessage, h, if_true, true_and]
    exact incrementPeerSent_getElem st.peers mac i
  · have h' : tOk mac = false := by simpa using h
    refine ⟨by simp [sendMessage, h'], by simp [sendMessage, h'],
      by simp [sendMessage, h'], fun i => ?_, rfl⟩
    simp [sendMessage, h']

end ESPNow

namespace ESPNow

/-! ## C7: registration idempotency and the TableFull boundary -/

/-- C7 counterexample: (a) when the table is full, `addPeer` fails even for
an address that is already present (the capacity check precedes the
already-registered check); (b) when the address is present only as an
inactive entry, a second `addPeer` call appends a duplicate entry, growing
the table — both refute strict idempotency. -/
theorem addPeer_not_idempotent_cex :
    addPeer fullTable macA [66] 0 true = (fullTable, false) ∧
    (addPeer [peerAInactive] macA [66] 5 true).1.length = 2 := by
  decide

/-- C7 amended: a second `addPeer` for an address is a no-op success only
when the matching entry is still `active` and the table is below
`MAX_ESPNOW_PEERS`; once `MAX_ESPNOW_PEERS` entries exist `addPeer` fails
regardless of whether the address is present (an address present only as an
inactive entry is instead re-added as a duplicate, see the counterexample). -/
theorem addPeer_amended (peers : List PeerInfo) (mac name : List Nat)
    (now : Nat) (driverOk : Bool) :
    (peers.length < MAX_ESPNOW_PEERS → isPeerRegistered peers mac = true →
      addPeer peers mac name now driverOk = (peers, true)) ∧
    (MAX_ESPNOW_PEERS ≤ peers.length →
      addPeer peers mac name now driverOk = (peers, false)) := by
  constructor
  · intro hlen hreg
    simp [addPeer, Nat.not_le.mpr hlen, hreg]
  · intro hlen
    simp [addPeer, hlen]

/-- C7 witness: a below-capacity re-registration of the active `macA` entry
is a no-op success, and a full table rejects a fresh address. -/
theorem addPeer_amended_witness :
    addPeer [peerA] macA [66] 7 true = ([peerA], true) ∧
    addPeer fullTable [9, 9, 9, 9, 9, 9] [66] 7 true = (fullTable, false) :=
  ⟨(addPeer_amended [peerA] macA [66] 7 true).1 (by decide) (by decide),
   (addPeer_amended fullTable [9, 9, 9, 9, 9, 9] [66] 7 true).2 (by decide)⟩

end ESPNow

namespace ESPNow

/-! ## C2: payload boundary behaviour of the send path -/

/-- C2 counterexample: a 230-byte payload is silently cut to 229 bytes
(`sizeof(msg.data) - 1`), and a 231-byte payload is not rejected — it is
truncated to 229 bytes and still handed to the transport, which accepts it.
There is no `PayloadTooLarge` error path. -/
theorem sendMessage_truncates_cex :
    ((sendMessage st0 macB macA 0 (List.replicate 230 65) 0
        (fun _ => true)).2.2.dataLen = 229) ∧
    ((sendMessage st0 macB macA 0 (List.replicate 231 65) 0
        (fun _ => true)).2.1 = true) ∧
    ((sendMessage st0 macB macA 0 (List.replicate 231 65) 0
        (fun _ => true)).2.2.data = List.replicate 229 65) := by
  refine ⟨by decide, by decide, by decide⟩

/-- C2 amended: `sendMessage` never rejects a payload for its size.  It
always transmits: the frame carries the first `min(length, 229)` payload
bytes (so payloads of at most 229 bytes go out intact, and anything longer
is silently truncated to 229 bytes), and the call's outcome is exactly the
transport's verdict. -/
theorem sendMessage_truncates_amended (st : CommState) (own mac : List Nat)
    (type : Nat) (payload : List Nat) (now : Nat) (tOk : List Nat → Bool) :
    ((sendMessage st own mac type payload now tOk).2.2 =
      buildMessage own type payload now) ∧
    ((sendMessage st own mac type payload now tOk).2.2.dataLen =
      min payload.length 229) ∧
    ((sendMessage st own mac type payload now tOk).2.2.data =
      (payload.take 229).map (· % 256)) ∧
    ((sendMessage st own mac type payload now tOk).2.1 = tOk mac) := by
  have hmsg : (sendMessage st own mac type payload now tOk).2.2 =
      buildMessage own type payload now := by
    by_cases h : tOk mac <;> simp [sendMessage, h]
  have htake : payload.take (min payload.length 229) = payload.take 229 := by
    rcases Nat.le_total payload.length 229 with h | h
    · rw [Nat.min_eq_left h, List.take_length, List.take_of_length_le h]
    · rw [Nat.min_eq_right h]
  refine ⟨hmsg, by rw [hmsg]; rfl, ?_, ?_⟩
  · rw [hmsg]
    show (payload.take (min payload.length 229)).map (· % 256) = _
    rw [htake]
  · by_cases h : tOk mac <;> simp [sendMessage, h]

end ESPNow

namespace ESPNow

/-! ## C9: size of the transmitted frame -/

/-- C9 counterexample: an 11-byte payload does not produce the claimed
`13 + 11 = 24`-byte frame; `esp_now_send` is always handed
`sizeof(ESPNowMessage) = 244` bytes. -/
theorem frame_not_13_plus_N_cex :
    ((serializeMessage (buildMessage macB 0 (List.replicate 11 65) 0)
        (fun _ => 0)).length = 244) ∧
    (244 : Nat) ≠ 13 + 11 := by
  refine ⟨by decide, by decide⟩

/-- C9 amended: the frame handed to the transport is always the whole
in-memory struct — `sizeof(ESPNowMessage) = 244` bytes (13 layout bytes of
header/checksum, 1 alignment padding byte, and the full 230-byte data
array) — independent of the payload length, and 244 stays below the
250-byte ESP-NOW datagram ceiling. -/
theorem frame_is_244_amended (own : List Nat) (type : Nat)
    (payload : List Nat) (now : Nat) (junk : Nat → Nat)
    (h6 : own.length = 6) :
    (serializeMessage (buildMessage own type payload now) junk).length = 244 ∧
    (244 : Nat) ≤ 250 := by
  refine ⟨?_, by norm_num⟩
  simp [serializeMessage, buildMessage, le32, h6]
  omega

/-- C9 witness: a concrete 2-byte payload still yields a 244-byte frame. -/
theorem frame_is_244_amended_witness :
    (serializeMessage (buildMessage macB 0 [1, 2] 0) (fun _ => 0)).length = 244 ∧
    (244 : Nat) ≤ 250 :=
  frame_is_244_amended macB 0 [1, 2] 0 (fun _ => 0) (by decide)

end ESPNow

namespace ESPNow

/-! ## C3: the receive path's (absent) length validation -/

/-- C3 counterexample: a zero-length inbound buffer (far shorter than the
13-byte fixed header) backed by zeroed adjacent memory is not rejected as
truncated: the struct cast reads past the buffer, the all-zero frame passes
the checksum comparison, `totalReceived` is bumped and the user callback is
invoked. -/
theorem onDataRecv_accepts_short_buffer_cex :
    onDataRecv st0 macA (fun _ => 0) 0 0 =
      ({ peers := [], totalSent := 0, totalReceived := 1, totalFailed := 0 },
       some ([], 0)) := by
  decide

/-- C3 amended: `onDataRecv` performs no buffer-length validation at all —
its behaviour is completely independent of the driver-supplied length (it
reads the struct's fixed offsets from the memory behind the pointer, beyond
the end of any shorter buffer), and a frame is dropped (`none`, no handler
call) exactly when the recomputed checksum mismatches the stored byte. -/
theorem onDataRecv_ignores_length_amended (st : CommState) (src : List Nat)
    (mem : Nat → Nat) (bufLen bufLen' now : Nat) :
    (onDataRecv st src mem bufLen now = onDataRecv st src mem bufLen' now) ∧
    ((onDataRecv st src mem bufLen now).2 = none ↔
      validateChecksum (parseMessage mem) = false) := by
  refine ⟨rfl, ?_⟩
  unfold onDataRecv
  by_cases h : validateChecksum (parseMessage mem) <;> simp [h]

end ESPNow

namespace ESPNow

/-! ## C1: encode/decode round trip -/

/-- Reading every position of a list through `getD` reproduces the list. -/
lemma range_map_getD (l : List Nat) :
    (List.range l.length).map (fun i => l.getD i 0) = l := by
  induction l with
  | nil => simp
  | cons a t ih =>
    rw [List.length_cons, List.range_succ_eq_map, List.map_cons, List.map_map,
      show ((fun i => (a :: t).getD i 0) ∘ Nat.succ) = (fun i => t.getD i 0)
        from rfl, ih]
    rfl

/-- An in-bounds `getD` on an append reads the left part. -/
lemma getD_append_of_lt (A B : List Nat) (i : Nat) (h : i < A.length) :
    (A ++ B).getD i 0 = A.getD i 0 := by
  rw [List.getD_eq_getElem?_getD, List.getD_eq_getElem?_getD,
    List.getElem?_append, if_pos h]

/-- A `getD` past a left part of known length reads the right part. -/
lemma getD_append_right_len (A B : List Nat) (k i : Nat) (h : A.length = k) :
    (A ++ B).getD (k + i) 0 = B.getD i 0 := by
  have hsub : k + i - A.length = i := by omega
  rw [List.getD_eq_getElem?_getD, List.getD_eq_getElem?_getD,
    List.getElem?_append_right (by omega), hsub]

/-- Casting the transmitted struct bytes back (as `onDataRecv` does)
reproduces a well-formed message exactly, whatever the padding/tail junk
bytes were. -/
lemma parse_serialize (ty s0 s1 s2 s3 s4 s5 ts dl : Nat) (da : List Nat)
    (ck : Nat) (junk : Nat → Nat)
    (hty : ty < 256) (hs : ∀ b ∈ [s0, s1, s2, s3, s4, s5], b < 256)
    (hts : ts < 4294967296) (hdl : dl ≤ 229) (hda : da.length = dl)
    (hdb : ∀ b ∈ da, b < 256) (hck : ck < 256) :
    parseMessage (fun i =>
        (serializeMessage
          { type := ty, sender := [s0, s1, s2, s3, s4, s5], timestamp := ts,
            dataLen := dl, data := da, checksum := ck } junk).getD i 0) =
      { type := ty, sender := [s0, s1, s2, s3, s4, s5], timestamp := ts,
        dataLen := dl, data := da, checksum := ck } := by
  have hb0 : s0 < 256 := hs s0 (by simp)
  have hb1 : s1 < 256 := hs s1 (by simp)
  have hb2 : s2 < 256 := hs s2 (by simp)
  have hb3 : s3 < 256 := hs s3 (by simp)
  have hb4 : s4 < 256 := hs s4 (by simp)
  have hb5 : s5 < 256 := hs s5 (by simp)
  set jt : List Nat := (List.range (229 - dl)).map
    (fun i => junk (14 + dl + i) % 256) with hjt
  set S : List Nat := serializeMessage
    { type := ty, sender := [s0, s1, s2, s3, s4, s5], timestamp := ts,
      dataLen := dl, data := da, checksum := ck } junk with hSdef
  have hS : S = [ty, s0, s1, s2, s3, s4, s5, junk 7 % 256, ts % 256,
      ts / 256 % 256, ts / 65536 % 256, ts / 16777216 % 256, dl]
      ++ ((da ++ ([0] ++ jt)) ++ [ck]) := by
    rw [hSdef]
    simp [serializeMessage, le32, hjt]
  have e0 : S.getD 0 0 = ty := rfl
  have e1 : S.getD 1 0 = s0 := rfl
  have e2 : S.getD 2 0 = s1 := rfl
  have e3 : S.getD 3 0 = s2 := rfl
  have e4 : S.getD 4 0 = s3 := rfl
  have e5 : S.getD 5 0 = s4 := rfl
  have e6 : S.getD 6 0 = s5 := rfl
  have e8 : S.getD 8 0 = ts % 256 := rfl
  have e9 : S.getD 9 0 = ts / 256 % 256 := rfl
  have e10 : S.getD 10 0 = ts / 65536 % 256 := rfl
  have e11 : S.getD 11 0 = ts / 16777216 % 256 := rfl
  have e12 : S.getD 12 0 = dl := rfl
  have hXlen : (da ++ ([0] ++ jt)).length = 230 := by
    simp [hjt, hda]
    omega
  have e243 : S.getD 243 0 = ck := by
    rw [hS]
    have h1 : ([ty, s0, s1, s2, s3, s4, s5, junk 7 % 256, ts % 256,
        ts / 256 % 256, ts / 65536 % 256, ts / 16777216 % 256, dl]
        ++ ((da ++ ([0] ++ jt)) ++ [ck])).getD (13 + 230) 0 =
        ((da ++ ([0] ++ jt)) ++ [ck]).getD 230 0 :=
      getD_append_right_len _ _ 13 230 rfl
    have h2 : ((da ++ ([0] ++ jt)) ++ [ck]).getD (230 + 0) 0 =
        ([ck] : List Nat).getD 0 0 :=
      getD_append_right_len _ _ 230 0 hXlen
    exact h1.trans h2
  have hdata : ∀ i ∈ List.range dl,
      S.getD (13 + i) 0 % 256 = da.getD i 0 := by
    intro i hi
    rw [List.mem_range] at hi
    have h1 : S.getD (13 + i) 0 = ((da ++ ([0] ++ jt)) ++ [ck]).getD i 0 := by
      rw [hS]
      exact getD_append_right_len _ _ 13 i rfl
    have h2 : ((da ++ ([0] ++ jt)) ++ [ck]).getD i 0 = da.getD i 0 := by
      rw [getD_append_of_lt _ _ i (by omega), getD_append_of_lt _ _ i (by omega)]
    have hlt : i < da.length := by omega
    rw [h1, h2, List.getD_eq_getElem da 0 hlt]
    exact Nat.mod_eq_of_lt (hdb _ (List.getElem_mem hlt))
  simp only [parseMessage, ESPNowMessage.mk.injEq]
  refine ⟨?_, ?_, ?_, ?_, ?_, ?_⟩
  · rw [e0]; exact Nat.mod_eq_of_lt hty
  · rw [e1, Nat.mod_eq_of_lt hb0, e2, Nat.mod_eq_of_lt hb1,
      e3, Nat.mod_eq_of_lt hb2, e4, Nat.mod_eq_of_lt hb3,
      e5, Nat.mod_eq_of_lt hb4, e6, Nat.mod_eq_of_lt hb5]
  · rw [e8, e9, e10, e11]
    omega
  · rw [e12]
    omega
  · rw [e12, Nat.mod_eq_of_lt (by omega : dl < 256)]
    rw [List.map_congr_left hdata, ← hda]
    exact range_map_getD da
  · rw [e243]
    exact Nat.mod_eq_of_lt hck

end ESPNow

namespace ESPNow

/-- Mapping `% 256` over a list of bytes is the identity. -/
lemma map_mod256_id (l : List Nat) (h : ∀ b ∈ l, b < 256) :
    l.map (· % 256) = l := by
  induction l with
  | nil => rfl
  | cons a t ih =>
    simp only [List.map_cons]
    rw [Nat.mod_eq_of_lt (h a (by simp)), ih (fun b hb => h b (by simp [hb]))]

/-- For byte-valued inputs within the limits, `buildMessage` stores the
arguments unchanged and appends the checksum of the checksum-free struct. -/
lemma buildMessage_fields (own : List Nat) (type : Nat) (payload : List Nat)
    (now : Nat) (hob : ∀ b ∈ own, b < 256) (hty : type < 256)
    (hnow : now < 4294967296) (hlen : payload.length ≤ 229)
    (hpb : ∀ b ∈ payload, b < 256) :
    buildMessage own type payload now =
      { type := type, sender := own, timestamp := now,
        dataLen := payload.length, data := payload,
        checksum := calculateChecksum
          { type := type, sender := own, timestamp := now,
            dataLen := payload.length, data := payload, checksum := 0 } } := by
  simp only [buildMessage]
  rw [Nat.min_eq_left hlen, List.take_length, map_mod256_id own hob,
    map_mod256_id payload hpb, Nat.mod_eq_of_lt hty, Nat.mod_eq_of_lt hnow]

/-- C1 counterexample: at the claim's stated bound `payload.length = 230`
the sender truncates (`sizeof(msg.data) - 1 = 229`), so the decoded payload
length is 229, not the original 230 — the round trip does not reproduce a
230-byte payload. -/
theorem roundTrip_truncates_at_230_cex :
    (parseMessage (fun i =>
        (serializeMessage (buildMessage macB 0 (List.replicate 230 65) 5)
          (fun _ => 0)).getD i 0)).dataLen = 229 ∧
    (229 : Nat) ≠ 230 := by
  refine ⟨by decide, by decide⟩

/-- C1 amended: for every kind byte, 6-byte sender address, `uint32`
timestamp and NUL-free payload of at most 229 bytes, parsing the transmitted
struct bytes (with arbitrary padding/tail junk) reproduces the built message
exactly, the built message carries the original fields unchanged, and the
receiver's checksum verification succeeds. -/
theorem roundTrip_amended (own : List Nat) (type : Nat) (payload : List Nat)
    (now : Nat) (junk : Nat → Nat)
    (h6 : own.length = 6) (hob : ∀ b ∈ own, b < 256) (hty : type < 256)
    (hnow : now < 4294967296) (hlen : payload.length ≤ 229)
    (hpb : ∀ b ∈ payload, b < 256) :
    parseMessage (fun i =>
        (serializeMessage (buildMessage own type payload now) junk).getD i 0) =
      buildMessage own type payload now ∧
    (buildMessage own type payload now).type = type ∧
    (buildMessage own type payload now).sender = own ∧
    (buildMessage own type payload now).timestamp = now ∧
    (buildMessage own type payload now).dataLen = payload.length ∧
    (buildMessage own type payload now).data = payload ∧
    validateChecksum (parseMessage (fun i =>
        (serializeMessage (buildMessage own type payload now) junk).getD i 0)) =
      true := by
  obtain ⟨a0, a1, a2, a3, a4, a5, rfl⟩ :
      ∃ a0 a1 a2 a3 a4 a5, own = [a0, a1, a2, a3, a4, a5] := by
    rcases own with _ | ⟨a0, _ | ⟨a1, _ | ⟨a2, _ | ⟨a3, _ | ⟨a4, _ |
      ⟨a5, _ | ⟨a6, own⟩⟩⟩⟩⟩⟩⟩ <;> simp_all
  have hB : buildMessage [a0, a1, a2, a3, a4, a5] type payload now =
      { type := type, sender := [a0, a1, a2, a3, a4, a5], timestamp := now,
        dataLen := payload.length, data := payload,
        checksum := calculateChecksum
          { type := type, sender := [a0, a1, a2, a3, a4, a5], timestamp := now,
            dataLen := payload.length, data := payload, checksum := 0 } } :=
    buildMessage_fields _ _ _ _ hob hty hnow hlen hpb
  have hps := parse_serialize type a0 a1 a2 a3 a4 a5 now payload.length payload
    (calculateChecksum
      { type := type, sender := [a0, a1, a2, a3, a4, a5], timestamp := now,
        dataLen := payload.length, data := payload, checksum := 0 }) junk
    hty (by intro b hb; exact hob b (by simpa using hb)) hnow hlen rfl hpb
    (calculateChecksum_lt _)
  refine ⟨?_, ?_, ?_, ?_, ?_, ?_, ?_⟩
  · rw [hB]
    exact hps
  · rw [hB]
  · rw [hB]
  · rw [hB]
  · rw [hB]
  · rw [hB]
  · rw [hB, hps]
    exact beq_self_eq_true _

/-- C1 witness: a concrete 3-byte payload round trip on `macB`. -/
theorem roundTrip_amended_witness :
    parseMessage (fun i =>
        (serializeMessage (buildMessage macB 0 [1, 2, 3] 5)
          (fun _ => 0)).getD i 0) =
      buildMessage macB 0 [1, 2, 3] 5 ∧
    (buildMessage macB 0 [1, 2, 3] 5).type = 0 ∧
    (buildMessage macB 0 [1, 2, 3] 5).sender = macB ∧
    (buildMessage macB 0 [1, 2, 3] 5).timestamp = 5 ∧
    (buildMessage macB 0 [1, 2, 3] 5).dataLen = [1, 2, 3].length ∧
    (buildMessage macB 0 [1, 2, 3] 5).data = [1, 2, 3] ∧
    validateChecksum (parseMessage (fun i =>
        (serializeMessage (buildMessage macB 0 [1, 2, 3] 5)
          (fun _ => 0)).getD i 0)) = true :=
  roundTrip_amended macB 0 [1, 2, 3] 5 (fun _ => 0) (by decide) (by decide)
    (by decide) (by decide) (by decide) (by decide)

end ESPNow

namespace ESPNow

/-! ## C10: broadcast fan-out -/

/-- The statistics bump in `sendMessage` never changes any entry's address
or `active` flag. -/
lemma incrementPeerSent_skel (ps : List PeerInfo) (mac : List Nat) :
    (incrementPeerSent ps mac).map (fun p => (p.mac, p.active)) =
      ps.map (fun p => (p.mac, p.active)) := by
  induction ps with
  | nil => rfl
  | cons p t ih =>
    by_cases h : p.mac = mac <;> simp [incrementPeerSent, h, ih]

/-- Loop invariant for `sendToAllAux`, stated over the `(mac, active)`
skeleton of the not-yet-visited suffix of the live table: the transmit
trace is the ordered list of active MACs of that suffix, and `totalFailed`
grows by exactly the number of active entries the transport rejects. -/
lemma sendToAllAux_spec (own : List Nat) (ty : Nat) (pl : List Nat)
    (now : Nat) (tOk : List Nat → Bool) :
    ∀ (sl : List (List Nat × Bool)) (st : CommState) (i : Nat) (succ : Bool),
      (st.peers.drop i).map (fun p => (p.mac, p.active)) = sl →
      st.totalFailed < 4294967296 →
      (sendToAllAux own ty pl now tOk sl.length i st succ).2.2 =
          (sl.filter (fun q => q.2)).map (fun q => q.1) ∧
      (sendToAllAux own ty pl now tOk sl.length i st succ).1.totalFailed =
          (st.totalFailed +
            (sl.filter (fun q => q.2 && !tOk q.1)).length) % 4294967296 := by
  intro sl
  induction sl with
  | nil =>
    intro st i succ hdrop htf
    refine ⟨rfl, ?_⟩
    show st.totalFailed = _
    simp [Nat.mod_eq_of_lt htf]
  | cons q sl' ih =>
    intro st i succ hdrop htf
    cases hd : st.peers.drop i with
    | nil => rw [hd] at hdrop; simp at hdrop
    | cons p rest =>
      rw [hd] at hdrop
      simp only [List.map_cons, List.cons.injEq] at hdrop
      obtain ⟨hq, hrest⟩ := hdrop
      have hp : st.peers[i]? = some p := by
        have h0 := List.getElem?_drop st.peers i 0
        rw [hd] at h0
        simpa using h0.symm
      have htail : st.peers.drop (i + 1) = rest := by
        rw [← List.tail_drop, hd]
        rfl
      cases hact : p.active with
      | false =>
        have hdrop' : (st.peers.drop (i + 1)).map
            (fun p => (p.mac, p.active)) = sl' := by rw [htail]; exact hrest
        have hrec := ih st (i + 1) succ hdrop' htf
        rw [← hq]
        simp only [show (q :: sl').length = sl'.length + 1 from rfl,
          sendToAllAux, hp, hact, Bool.false_eq_true, if_false, hrec.1,
          hrec.2, List.filter_cons, hact]
        simp
      | true =>
        rw [← hq]
        cases htk : tOk p.mac with
        | true =>
          have hpeers : (sendMessage st own p.mac ty pl now tOk).1.peers =
              incrementPeerSent st.peers p.mac := by simp [sendMessage, htk]
          have hfail : (sendMessage st own p.mac ty pl now tOk).1.totalFailed =
              st.totalFailed := by simp [sendMessage, htk]
          have hdrop' : ((sendMessage st own p.mac ty pl now
              tOk).1.peers.drop (i + 1)).map (fun p => (p.mac, p.active)) =
              sl' := by
            rw [hpeers, List.map_drop, incrementPeerSent_skel,
              ← List.map_drop, htail]
            exact hrest
          have hrec := ih (sendMessage st own p.mac ty pl now tOk).1 (i + 1)
            (succ && (sendMessage st own p.mac ty pl now tOk).2.1)
            hdrop' (by rw [hfail]; exact htf)
          simp only [show (q :: sl').length = sl'.length + 1 from rfl,
            sendToAllAux, hp, hact, if_true, hrec.1, hrec.2, hfail,
            List.filter_cons, htk]
          simp
        | false =>
          have hpeers : (sendMessage st own p.mac ty pl now tOk).1.peers =
              st.peers := by simp [sendMessage, htk]
          have hfail : (sendMessage st own p.mac ty pl now tOk).1.totalFailed =
              (st.totalFailed + 1) % 4294967296 := by simp [sendMessage, htk]
          have hdrop' : ((sendMessage st own p.mac ty pl now
              tOk).1.peers.drop (i + 1)).map (fun p => (p.mac, p.active)) =
              sl' := by
            rw [hpeers, htail]
            exact hrest
          have hrec := ih (sendMessage st own p.mac ty pl now tOk).1 (i + 1)
            (succ && (sendMessage st own p.mac ty pl now tOk).2.1)
            hdrop' (by rw [hfail]; exact Nat.mod_lt _ (by norm_num))
          simp only [show (q :: sl').length = sl'.length + 1 from rfl,
            sendToAllAux, hp, hact, if_true, hrec.1, hrec.2, hfail,
            List.filter_cons, htk]
          refine ⟨by simp, ?_⟩
          simp
          omega

end ESPNow

namespace ESPNow

/-- A state with three registered active peers, used by the C10 witness. -/
def threeState : CommState :=
  { peers := [peerA,
      { mac := macC, name := [67], active := true, lastSeen := 0,
        messagesSent := 0, messagesReceived := 0 },
      { mac := macD, name := [68], active := true, lastSeen := 0,
        messagesSent := 0, messagesReceived := 0 }],
    totalSent := 0, totalReceived := 0, totalFailed := 0 }

/-- C10: `sendToAllPeers` hands a frame to the transport exactly once per
active table entry, in table order — one peer's transport rejection never
stops the remaining attempts — and `totalFailed` grows by exactly one per
rejected active peer. -/
theorem sendToAllPeers_broadcast (st : CommState) (own : List Nat) (ty : Nat)
    (pl : List Nat) (now : Nat) (tOk : List Nat → Bool)
    (htf : st.totalFailed < 4294967296) :
    (sendToAllPeers st own ty pl now tOk).2.2 =
        (st.peers.filter (fun p => p.active)).map (fun p => p.mac) ∧
    (sendToAllPeers st own ty pl now tOk).1.totalFailed =
        (st.totalFailed +
          (st.peers.filter (fun p => p.active && !tOk p.mac)).length) %
          4294967296 := by
  have h := sendToAllAux_spec own ty pl now tOk
    (st.peers.map (fun p => (p.mac, p.active))) st 0 true (by simp) htf
  rw [List.length_map] at h
  have h1 : ((st.peers.map (fun p => (p.mac, p.active))).filter
      (fun q => q.2)).map (fun q => q.1) =
      (st.peers.filter (fun p => p.active)).map (fun p => p.mac) := by
    rw [List.filter_map, List.map_map]
    rfl
  have h2 : ((st.peers.map (fun p => (p.mac, p.active))).filter
      (fun q => q.2 && !tOk q.1)).length =
      (st.peers.filter (fun p => p.active && !tOk p.mac)).length := by
    rw [List.filter_map, List.length_map]
    rfl
  rw [h1, h2] at h
  exact h

/-- C10 witness: three active peers with the transport rejecting `macC`; all
three MACs are attempted in order and `totalFailed` rises by exactly 1. -/
theorem sendToAllPeers_broadcast_witness :
    (sendToAllPeers threeState macB 0 [72] 0 (fun m => !(m == macC))).2.2 =
        (threeState.peers.filter (fun p => p.active)).map (fun p => p.mac) ∧
    (sendToAllPeers threeState macB 0 [72] 0
        (fun m => !(m == macC))).1.totalFailed =
        (threeState.totalFailed +
          (threeState.peers.filter
            (fun p => p.active && !(!(p.mac == macC)))).length) % 4294967296 :=
  sendToAllPeers_broadcast threeState macB 0 [72] 0 (fun m => !(m == macC))
    (by decide)

end ESPNow
